import Mathlib

/-!
Verification of the clerk-bot client-side DOM-automation bridge.

This file gives a shallow embedding of the core logic of the repository:
the DOM scanner and action executor (`src/extension/lib/content/dom-scanner.ts`),
the overlay question gate (`src/extension/lib/content/overlay-ui.ts`), and the
background session relay (the background service worker source). DOM nodes are
modelled as records of the observations the code makes of them; the mutable
reference table is an association list; the DOM events the code dispatches are
recorded in an explicit trace.
-/

namespace ClerkBot

/-! ## String helpers mirroring the JavaScript primitives used by the source -/

/-- The whitespace characters recognised by the model of the JavaScript
string primitives: space, tab, newline, carriage return. -/
def isSpaceChar (c : Char) : Bool :=
  c == ' ' || c == '\t' || c == '\n' || c == '\r'

/-- Drop leading whitespace characters. -/
def dropLeadingSpace : List Char → List Char
  | [] => []
  | c :: rest => if isSpaceChar c then dropLeadingSpace rest else c :: rest

/-- Model of `String.prototype.trim`: strip whitespace from both ends. -/
def jsTrim (s : String) : String :=
  String.mk (List.reverse (dropLeadingSpace (List.reverse (dropLeadingSpace s.toList))))

/-- Model of `String.prototype.toLowerCase` (ASCII letters). -/
def jsToLower (s : String) : String :=
  String.mk (s.toList.map Char.toLower)

/-- True when the second character list occurs at the head of the first. -/
def startsWithChars : List Char → List Char → Bool
  | _, [] => true
  | [], _ :: _ => false
  | a :: as, b :: bs => a == b && startsWithChars as bs

/-- True when the second character list occurs contiguously anywhere in the first. -/
def containsChars : List Char → List Char → Bool
  | [], sub => sub.isEmpty
  | a :: as, sub => startsWithChars (a :: as) sub || containsChars as sub

/-- Model of `String.prototype.includes`: `strIncludes s sub` is true when
`sub` occurs contiguously inside `s`. -/
def strIncludes (s sub : String) : Bool :=
  containsChars s.toList sub.toList

/-! ## ActionResult — the `{ ok: boolean; error?: string }` record -/

/-- Model of the TypeScript result record `{ ok: boolean; error?: string }`. -/
structure ActionResult where
  ok : Bool
  error : Option String
deriving DecidableEq

/-- The success result `{ ok: true }`. -/
def okResult : ActionResult := ⟨true, none⟩

/-- A failure result `{ ok: false, error: msg }`. -/
def errResult (msg : String) : ActionResult := ⟨false, some msg⟩

/-! ## Select options and the matching loop of `fillSelect` -/

/-- One `<option>` of a select element: its `value` attribute and display text. -/
structure SelectOpt where
  value : String
  text : String
deriving DecidableEq

/-- The exact-match test of `fillSelect`:
`optText === valueLower || optValue === valueLower` where
`optText = opt.text.trim().toLowerCase()` and `optValue = opt.value.toLowerCase()`. -/
def isExactMatch (valueLower : String) (o : SelectOpt) : Bool :=
  jsToLower (jsTrim o.text) == valueLower || jsToLower o.value == valueLower

/-- The substring fallback test of `fillSelect`:
`optText.includes(valueLower) || valueLower.includes(optText)`. -/
def isSubstrMatch (valueLower : String) (o : SelectOpt) : Bool :=
  strIncludes (jsToLower (jsTrim o.text)) valueLower || strIncludes valueLower (jsToLower (jsTrim o.text))

/-- The option-scanning loop of `fillSelect`: walk the options in document
order carrying the current `bestMatch`; an exact match breaks immediately,
a substring match is recorded only when no `bestMatch` is set yet. -/
def selectLoop (valueLower : String) : List SelectOpt → Option SelectOpt → Option SelectOpt
  | [], best => best
  | o :: rest, best =>
    if isExactMatch valueLower o then some o
    else if best.isNone && isSubstrMatch valueLower o then selectLoop valueLower rest (some o)
    else selectLoop valueLower rest best

/-- The failure message of `fillSelect`: `No matching option for "<value>".
Available: <texts of the options whose value attribute is non-empty>`. -/
def noMatchMsg (opts : List SelectOpt) (value : String) : String :=
  "No matching option for \"" ++ value ++ "\". Available: " ++
    String.intercalate ", " ((opts.filter (fun o => o.value != "")).map (fun o => jsTrim o.text))

/-! ## Form elements, events, page state -/

/-- A form element as the action executor distinguishes them via `instanceof`
and the `type` property: select (with options and current value), textarea,
input (with its effective type, checked flag, and value), or any other element
(with its tag name and whether it has a `value` property). -/
inductive FormElem where
  | inputEl (ty : String) (checked : Bool) (value : String)
  | selectEl (opts : List SelectOpt) (value : String)
  | textareaEl (value : String)
  | otherEl (tagName : String) (hasValueProp : Bool) (value : String)
deriving DecidableEq

/-- DOM events the executor dispatches (or native clicks it fires), tagged with
the index of the target element in the page. -/
inductive DomEvent where
  | click (i : Nat)
  | inputEv (i : Nat)
  | changeEv (i : Nat)
  | blurEv (i : Nat)
  | focusEv (i : Nat)
deriving DecidableEq

/-- The page-context state the executor acts on: the document (a list of form
elements in document order) and the reference table `refMap` mapping reference
strings to element indices. -/
structure PageState where
  dom : List FormElem
  table : List (String × Nat)
deriving DecidableEq

/-- Lookup in the reference table (`refMap.get(ref)`), returning the element
index; `none` models `undefined`/`null`. -/
def lookupRef (table : List (String × Nat)) (ref : String) : Option Nat :=
  match table.find? (fun p => p.1 == ref) with
  | some p => some p.2
  | none => none

/-- The event sequence of `fillTextInput`: focus, clear + input event, native
setter write, then input, change, blur. -/
def textFillEvents (i : Nat) : List DomEvent :=
  [DomEvent.focusEv i, DomEvent.inputEv i, DomEvent.inputEv i, DomEvent.changeEv i, DomEvent.blurEv i]

/-- The body of `fillFieldByRef` once the reference resolved to element `i`:
dispatch on the element kind exactly as the source does. Returns the new page
state, the trace of dispatched events, and the ActionResult. -/
def fillResolved (st : PageState) (i : Nat) (el : FormElem) (value : String) :
    PageState × List DomEvent × ActionResult :=
  match el with
  | FormElem.selectEl opts _cur =>
    let valueLower := jsTrim (jsToLower value)
    match selectLoop valueLower opts none with
    | some best =>
      ({ st with dom := st.dom.set i (FormElem.selectEl opts best.value) },
        [DomEvent.changeEv i], okResult)
    | none => (st, [], errResult (noMatchMsg opts value))
  | FormElem.textareaEl _ =>
    ({ st with dom := st.dom.set i (FormElem.textareaEl value) }, textFillEvents i, okResult)
  | FormElem.inputEl ty checked cur =>
    if ty == "checkbox" then
      let shouldCheck := ["true", "yes", "1"].contains (jsToLower value)
      if checked != shouldCheck then
        ({ st with dom := st.dom.set i (FormElem.inputEl ty (!checked) cur) },
          [DomEvent.click i], okResult)
      else (st, [], okResult)
    else if ty == "radio" then
      if !checked then
        ({ st with dom := st.dom.set i (FormElem.inputEl ty true cur) },
          [DomEvent.click i], okResult)
      else (st, [], okResult)
    else if ty == "file" then
      (st, [], errResult "Cannot programmatically fill file inputs")
    else
      ({ st with dom := st.dom.set i (FormElem.inputEl ty checked value) },
        textFillEvents i, okResult)
  | FormElem.otherEl tag hasVal _cur =>
    if hasVal then
      ({ st with dom := st.dom.set i (FormElem.otherEl tag hasVal value) },
        [DomEvent.inputEv i, DomEvent.changeEv i], okResult)
    else (st, [], errResult ("Cannot fill element type: " ++ tag))

/-- Model of `fillFieldByRef(ref, value)`: resolve the reference in the table; if absent
return the structured failure; otherwise act on the element. -/
def fillFieldByRef (st : PageState) (ref : String) (value : String) :
    PageState × List DomEvent × ActionResult :=
  match lookupRef st.table ref with
  | none => (st, [], errResult ("Element " ++ ref ++ " not found"))
  | some i =>
    match st.dom.get? i with
    | none => (st, [], errResult ("Element " ++ ref ++ " not found"))
    | some el => fillResolved st i el value

/-- Model of `clickElementByRef(ref)`: resolve the reference; if absent return the
structured failure; otherwise fire the native click (which toggles a checkbox
and checks a radio). -/
def clickElementByRef (st : PageState) (ref : String) :
    PageState × List DomEvent × ActionResult :=
  match lookupRef st.table ref with
  | none => (st, [], errResult ("Element " ++ ref ++ " not found"))
  | some i =>
    match st.dom.get? i with
    | none => (st, [], errResult ("Element " ++ ref ++ " not found"))
    | some el =>
      match el with
      | FormElem.inputEl ty checked v =>
        if ty == "checkbox" then
          ({ st with dom := st.dom.set i (FormElem.inputEl ty (!checked) v) },
            [DomEvent.click i], okResult)
        else if ty == "radio" then
          ({ st with dom := st.dom.set i (FormElem.inputEl ty true v) },
            [DomEvent.click i], okResult)
        else (st, [DomEvent.click i], okResult)
      | _ => (st, [DomEvent.click i], okResult)

/-! ## DOM scanner: `scanPage` and the reference table -/

/-- A DOM node as `scanPage` observes it: tag name, the effective input type,
`role` and `class` attributes, text content and the text sources used by
`getButtonText`, plus the style and layout observations `isVisible` reads.
An absent attribute is modelled as the empty string, matching how the source
treats missing attributes as falsy. -/
structure ScanElem where
  tagName : String
  typeAttr : String
  role : String
  className : String
  textContent : String
  valueAttr : String
  ariaLabel : String
  titleAttr : String
  offsetParentNull : Bool
  stylePosition : String
  styleDisplay : String
  styleVisibility : String
  styleOpacity : String
  rectWidth : Nat
  rectHeight : Nat
deriving DecidableEq

/-- Model of `isVisible`: no offset parent (unless position-fixed), `display:none`,
`visibility:hidden`, `opacity:0`, or an empty render box excludes the element. -/
def isVisible (e : ScanElem) : Bool :=
  if e.offsetParentNull && e.stylePosition != "fixed" then false
  else if e.styleDisplay == "none" || e.styleVisibility == "hidden" then false
  else if e.styleOpacity == "0" then false
  else if e.rectWidth == 0 && e.rectHeight == 0 then false
  else true

/-- Model of `isHiddenInput`: an input element whose type is `hidden`. -/
def isHiddenInput (e : ScanElem) : Bool :=
  e.tagName == "INPUT" && e.typeAttr == "hidden"

/-- The field query selector: input, select, and textarea elements. -/
def matchesFieldSel (e : ScanElem) : Bool :=
  e.tagName == "INPUT" || e.tagName == "SELECT" || e.tagName == "TEXTAREA"

/-- The button query selector: button elements, submit and button inputs,
and elements with role button. -/
def matchesButtonSel (e : ScanElem) : Bool :=
  e.tagName == "BUTTON" ||
    (e.tagName == "INPUT" && (e.typeAttr == "submit" || e.typeAttr == "button")) ||
    e.role == "button"

/-- The link query: anchors whose class attribute contains one of the
button-like substrings, case-sensitively. -/
def matchesLinkSel (e : ScanElem) : Bool :=
  e.tagName == "A" &&
    (strIncludes e.className "btn" || strIncludes e.className "button" ||
      strIncludes e.className "Button" || strIncludes e.className "next" ||
      strIncludes e.className "submit")

/-- Model of `getButtonText`: the value for inputs, else trimmed text content, else
trimmed `aria-label`, else trimmed `title`, else the empty string. -/
def getButtonText (e : ScanElem) : String :=
  if e.tagName == "INPUT" then e.valueAttr
  else if jsTrim e.textContent != "" then jsTrim e.textContent
  else if jsTrim e.ariaLabel != "" then jsTrim e.ariaLabel
  else jsTrim e.titleAttr

/-- Indices (in document order) of the elements the field loop keeps:
matching the field query, visible, and not hidden inputs. -/
def keptFieldIdxs (dom : List ScanElem) : List Nat :=
  (dom.enum.filter (fun p => matchesFieldSel p.2 && isVisible p.2 && !isHiddenInput p.2)).map
    (fun p => p.1)

/-- Indices of the elements the button loop keeps: matching the button query,
visible, with non-empty resolved button text. -/
def keptButtonIdxs (dom : List ScanElem) : List Nat :=
  (dom.enum.filter (fun p => matchesButtonSel p.2 && isVisible p.2 && getButtonText p.2 != "")).map
    (fun p => p.1)

/-- Indices of the anchors the link loop keeps: matching the link query,
visible, with non-empty trimmed text content. -/
def keptLinkIdxs (dom : List ScanElem) : List Nat :=
  (dom.enum.filter (fun p => matchesLinkSel p.2 && isVisible p.2 && jsTrim p.2.textContent != "")).map
    (fun p => p.1)

/-- The reference table built by one `scanPage` run: fields get `f0, f1, ...`
in scan order, buttons get `b0, b1, ...`, and link buttons continue the same
`b<N>` counter after the buttons. -/
def scanTable (dom : List ScanElem) : List (String × Nat) :=
  (keptFieldIdxs dom).enum.map (fun p => ("f" ++ toString p.1, p.2)) ++
    (keptButtonIdxs dom).enum.map (fun p => ("b" ++ toString p.1, p.2)) ++
    (keptLinkIdxs dom).enum.map
      (fun p => ("b" ++ toString (p.1 + (keptButtonIdxs dom).length), p.2))

/-- Model of `scanPage` as a transformer of the reference table: `refMap.clear()` then
rebuild the table from the current document; the previous table is discarded
wholesale. -/
def scanPage (dom : List ScanElem) (_oldTable : List (String × Nat)) : List (String × Nat) :=
  scanTable dom

/-- Model of `getElementByRef(ref)`: look the reference up in the current table,
`none` models the `null` returned for an absent reference. The resolved DOM
node is identified by its document index. -/
def getElementByRef (table : List (String × Nat)) (ref : String) : Option Nat :=
  lookupRef table ref

/-! ## Background session relay: ACTIVATE, STOP, stream error -/

/-- Externally visible effects of the background relay: closing an event
stream, issuing a stop request to the server, issuing a start request, opening
a stream, and sending a status message to a tab. -/
inductive RelayEffect where
  | closeStream (sessionId : String)
  | stopRequest (sessionId : String)
  | startRequest
  | openStream (sessionId : String)
  | sendStatus (tabId : Nat) (status : String) (msg : String)
deriving DecidableEq

/-- The background registry `sessions : Map<number, {sessionId, eventSource}>`,
keyed by tab id; the stream handle is identified by its session id. -/
structure RelayState where
  sessions : List (Nat × String)
deriving DecidableEq

/-- Model of `sessions.get(tabId)`. -/
def sessionsGet (st : RelayState) (tabId : Nat) : Option String :=
  match st.sessions.find? (fun p => p.1 == tabId) with
  | some p => some p.2
  | none => none

/-- Model of `sessions.delete(tabId)`. -/
def sessionsDelete (st : RelayState) (tabId : Nat) : RelayState :=
  ⟨st.sessions.filter (fun p => p.1 != tabId)⟩

/-- Model of `sessions.set(tabId, entry)`: overwrite any entry for the tab. -/
def sessionsSet (st : RelayState) (tabId : Nat) (sessionId : String) : RelayState :=
  ⟨(tabId, sessionId) :: (sessionsDelete st tabId).sessions⟩

/-- The ACTIVATE branch of `handleMessage`: if a session exists for the tab,
close its stream, issue a stop request for its id (failures swallowed), and
delete the entry; then request a new session start. `startOutcome` is the
outcome of `backendClient.startAutofill()` — `some newId` on success, `none`
when it throws (the catch branch returns an error and registers nothing).
Returns the new state, the ordered effect trace, and whether the response
was `{ok: true}`. -/
def handleActivate (st : RelayState) (tabId : Nat) (startOutcome : Option String) :
    RelayState × List RelayEffect × Bool :=
  let torn :=
    match sessionsGet st tabId with
    | some oldId =>
      (sessionsDelete st tabId, [RelayEffect.closeStream oldId, RelayEffect.stopRequest oldId])
    | none => (st, [])
  match startOutcome with
  | some newId =>
    (sessionsSet torn.1 tabId newId,
      torn.2 ++ [RelayEffect.startRequest, RelayEffect.openStream newId], true)
  | none => (torn.1, torn.2 ++ [RelayEffect.startRequest], false)

/-- The STOP branch of `handleMessage`: if the tab has a session, issue a stop
request, close the stream, delete the entry, and send the stopped status to
the tab; otherwise do nothing. Either way the response is `{ok: true}`. -/
def handleStop (st : RelayState) (tabId : Nat) : RelayState × List RelayEffect × Bool :=
  match sessionsGet st tabId with
  | some sid =>
    (sessionsDelete st tabId,
      [RelayEffect.stopRequest sid, RelayEffect.closeStream sid,
        RelayEffect.sendStatus tabId "stopped" "Stopped."], true)
  | none => (st, [], true)

/-- The `eventSource.onerror` handler: close the erroring stream and delete
the registry entry of the owning tab. -/
def streamError (st : RelayState) (tabId : Nat) (sessionId : String) :
    RelayState × List RelayEffect :=
  (sessionsDelete st tabId, [RelayEffect.closeStream sessionId])

/-- Filter for stop requests addressed to a given session id, used to count
how many stop requests a trace contains for that session. -/
def isStopFor (sid : String) : RelayEffect → Bool
  | RelayEffect.stopRequest s => s == sid
  | _ => false

/-! ## Overlay question gate: `showQuestion` -/

/-- A user interaction with the pending question UI: clicking the submit
button, or a keydown in the input; both carry the input value at that moment. -/
inductive UiEvent where
  | clickSubmit (text : String)
  | keydown (key : String) (text : String)
deriving DecidableEq

/-- Which events invoke the `submit` closure: a click on the submit button, or
a keydown whose key is Enter. Returns the input value read by the closure. -/
def submitAttempt : UiEvent → Option String
  | UiEvent.clickSubmit t => some t
  | UiEvent.keydown k t => if k == "Enter" then some t else none

/-- One step of the question gate: once resolved the promise stays resolved
(and the input UI has been cleared); otherwise a submit attempt resolves with
the trimmed answer exactly when the trimmed text is non-empty. -/
def gateStep (st : Option String) (e : UiEvent) : Option String :=
  match st with
  | some a => some a
  | none =>
    match submitAttempt e with
    | some t => if jsTrim t != "" then some (jsTrim t) else none
    | none => none

/-- Model of `showQuestion` as a function of the interaction sequence: the resolved
answer after processing the events in order, `none` while still pending. -/
def showQuestion (events : List UiEvent) : Option String :=
  events.foldl gateStep none

/-- The answer a single event would resolve the gate with, if any: a submit
attempt with non-empty trimmed text resolves with the trimmed text. -/
def validAnswer (e : UiEvent) : Option String :=
  match submitAttempt e with
  | some t => if jsTrim t != "" then some (jsTrim t) else none
  | none => none

/-! ## Label resolution: `findLabel` -/

/-- The observations `findLabel` makes of an element and its surroundings:
the element id; the text content of a `label[for=id]` element when one exists;
the text of the closest ancestor label after removing its interactive
children, when an ancestor label exists; the raw `aria-label` and
`aria-labelledby` attributes (`none` when absent); the text of the element the
`aria-labelledby` id resolves to, when found; the previous element sibling as
a (tagName, textContent) pair; whether the element is an input; and its
placeholder and name properties. -/
structure LabelCtx where
  id : String
  labelForText : Option String
  ancestorLabelText : Option String
  ariaLabel : Option String
  ariaLabelledBy : Option String
  labelledByText : Option String
  prevSibling : Option (String × String)
  isInput : Bool
  placeholder : String
  name : String
deriving DecidableEq

/-- The camel-case split step of the name fallback regex replace: insert a
space between a lowercase letter and an immediately following uppercase letter. -/
def camelSplitChars : List Char → List Char
  | [] => []
  | a :: rest =>
    match rest with
    | [] => [a]
    | b :: _ =>
      if a.isLower && b.isUpper then a :: ' ' :: camelSplitChars rest
      else a :: camelSplitChars rest

/-- The name fallback transform of `findLabel`:
`name.replace(/[_-]/g, ' ').replace(/([a-z])([A-Z])/g, '$1 $2')`. -/
def deCamel (s : String) : String :=
  let underscoresGone := s.toList.map (fun c => if c == '_' || c == '-' then ' ' else c)
  String.mk (camelSplitChars underscoresGone)

/-- Step 7 onward of `findLabel`: the de-camel-cased name of an input element,
else the empty string. -/
def findLabelFrom7 (c : LabelCtx) : String :=
  if c.isInput && c.name != "" then deCamel c.name else ""

/-- Step 6 onward of `findLabel`: the placeholder of an input element when
non-empty, else step 7. -/
def findLabelFrom6 (c : LabelCtx) : String :=
  if c.isInput && c.placeholder != "" then c.placeholder else findLabelFrom7 c

/-- Step 5 onward of `findLabel`: the trimmed text of the previous element
sibling when that sibling is not an INPUT or SELECT and its trimmed text is
non-empty and shorter than 100 characters, else step 6. -/
def findLabelFrom5 (c : LabelCtx) : String :=
  match c.prevSibling with
  | some p =>
    if p.1 != "INPUT" && p.1 != "SELECT" then
      let text := jsTrim p.2
      if text != "" && text.toList.length < 100 then text else findLabelFrom6 c
    else findLabelFrom6 c
  | none => findLabelFrom6 c

/-- Step 4 onward of `findLabel`: when the `aria-labelledby` attribute is
present and non-empty and the referenced element exists, return its trimmed
text (possibly empty); else step 5. -/
def findLabelFrom4 (c : LabelCtx) : String :=
  match c.ariaLabelledBy with
  | some lb =>
    if lb != "" then
      match c.labelledByText with
      | some t => jsTrim t
      | none => findLabelFrom5 c
    else findLabelFrom5 c
  | none => findLabelFrom5 c

/-- Step 3 onward of `findLabel`: when the raw `aria-label` attribute is
present and non-empty, return its trimmed value (possibly empty); else step 4. -/
def findLabelFrom3 (c : LabelCtx) : String :=
  match c.ariaLabel with
  | some a => if a != "" then jsTrim a else findLabelFrom4 c
  | none => findLabelFrom4 c

/-- Step 2 onward of `findLabel`: the trimmed ancestor-label text when
non-empty, else step 3. -/
def findLabelFrom2 (c : LabelCtx) : String :=
  match c.ancestorLabelText with
  | some t => if jsTrim t != "" then jsTrim t else findLabelFrom3 c
  | none => findLabelFrom3 c

/-- Model of `findLabel`: when the element has an id and a `label[for=id]` element
exists, return that label text trimmed (possibly empty); else steps 2-7. -/
def findLabel (c : LabelCtx) : String :=
  if c.id != "" then
    match c.labelForText with
    | some t => jsTrim t
    | none => findLabelFrom2 c
  else findLabelFrom2 c

/-! ## Specification-side definitions compared against the source embeddings -/

/-- Left-biased merge of options, used to phrase first-of-two-phases matching. -/
def oor (a b : Option α) : Option α :=
  match a with
  | some x => some x
  | none => b

/-- First option of the list that is `some`, else `none`. -/
def firstSome : List (Option String) → Option String
  | [] => none
  | some a :: _ => some a
  | none :: rest => firstSome rest

/-- The first exact match among the options, in document order. -/
def firstExact (valueLower : String) (opts : List SelectOpt) : Option SelectOpt :=
  opts.find? (isExactMatch valueLower)

/-- The first substring match among the options, in document order. -/
def firstSubstr (valueLower : String) (opts : List SelectOpt) : Option SelectOpt :=
  opts.find? (isSubstrMatch valueLower)

/-- The checkbox target state: true exactly when the lowercased value is
`true`, `yes`, or `1`. -/
def shouldCheck (value : String) : Bool :=
  ["true", "yes", "1"].contains (jsToLower value)

/-- Label step 1 as a fired-step: fires (with the trimmed, possibly empty,
label text) iff the element has an id and a `label[for=id]` element exists. -/
def labelStep1 (c : LabelCtx) : Option String :=
  if c.id != "" then c.labelForText.map jsTrim else none

/-- Label step 2 as a fired-step: fires iff an ancestor label exists and its
trimmed text is non-empty. -/
def labelStep2 (c : LabelCtx) : Option String :=
  match c.ancestorLabelText with
  | some t => if jsTrim t != "" then some (jsTrim t) else none
  | none => none

/-- Label step 3 as a fired-step: fires (with the trimmed, possibly empty,
value) iff the raw `aria-label` attribute is present and non-empty. -/
def labelStep3 (c : LabelCtx) : Option String :=
  match c.ariaLabel with
  | some a => if a != "" then some (jsTrim a) else none
  | none => none

/-- Label step 4 as a fired-step: fires (with the trimmed, possibly empty,
text) iff `aria-labelledby` is present and non-empty and its target exists. -/
def labelStep4 (c : LabelCtx) : Option String :=
  match c.ariaLabelledBy with
  | some lb =>
    if lb != "" then c.labelledByText.map jsTrim else none
  | none => none

/-- Label step 5 as a fired-step: fires iff the previous element sibling is
not an INPUT or SELECT and its trimmed text is non-empty and shorter than 100
characters. -/
def labelStep5 (c : LabelCtx) : Option String :=
  match c.prevSibling with
  | some p =>
    if p.1 != "INPUT" && p.1 != "SELECT" then
      if jsTrim p.2 != "" && (jsTrim p.2).toList.length < 100 then some (jsTrim p.2) else none
    else none
  | none => none

/-- Label step 6 as a fired-step: fires iff the element is an input with a
non-empty placeholder. -/
def labelStep6 (c : LabelCtx) : Option String :=
  if c.isInput && c.placeholder != "" then some c.placeholder else none

/-- Label step 7 as a fired-step: fires iff the element is an input with a
non-empty name, yielding the de-camel-cased name. -/
def labelStep7 (c : LabelCtx) : Option String :=
  if c.isInput && c.name != "" then some (deCamel c.name) else none

/-- The amended label specification: the result of the first step that fires,
in order, or the empty string when none fires. -/
def findLabelAmendedSpec (c : LabelCtx) : String :=
  (firstSome [labelStep1 c, labelStep2 c, labelStep3 c, labelStep4 c,
    labelStep5 c, labelStep6 c, labelStep7 c]).getD ""

/-- Helper for the claim-literal reading: keep a fired step only when its text
is non-empty. -/
def nonEmptyText (o : Option String) : Option String :=
  match o with
  | some t => if t != "" then some t else none
  | none => none

/-- The claim-literal reading of label resolution (claim C8 and spec section
4.1): each of the seven sources is tried in order until one yields non-empty
text, with the placeholder and name fallbacks applying to every element, and
the empty string otherwise. -/
def findLabelClaimed (c : LabelCtx) : String :=
  (firstSome
    [nonEmptyText (labelStep1 c), nonEmptyText (labelStep2 c), nonEmptyText (labelStep3 c),
      nonEmptyText (labelStep4 c), nonEmptyText (labelStep5 c),
      (if c.placeholder != "" then some c.placeholder else none),
      (if c.name != "" then some (deCamel c.name) else none)]).getD ""

/-! ## Theorems -/

/-- C5: for every reference string absent from the current reference table,
`fillFieldByRef(ref, value)` and `clickElementByRef(ref)` both return a
structured failure (the embedding is a total function, so nothing is thrown),
and the failure is exactly `{ok: false, error: "Element <ref> not found"}`
with the reference interpolated verbatim. -/
theorem fill_click_missing_ref (st : PageState) (ref : String) (value : String)
    (h : lookupRef st.table ref = none) :
    fillFieldByRef st ref value =
      (st, [], { ok := false, error := some ("Element " ++ ref ++ " not found") }) ∧
    clickElementByRef st ref =
      (st, [], { ok := false, error := some ("Element " ++ ref ++ " not found") }) := by
  constructor <;> simp [fillFieldByRef, clickElementByRef, h, errResult]

/-- Witness for C5: on an empty page, the reference `f0` is absent and both
operations return the verbatim not-found failure. -/
theorem fill_click_missing_ref_witness :
    lookupRef (PageState.mk [] []).table "f0" = none ∧
    fillFieldByRef ⟨[], []⟩ "f0" "x" =
      (⟨[], []⟩, [], { ok := false, error := some ("Element " ++ "f0" ++ " not found") }) ∧
    clickElementByRef ⟨[], []⟩ "f0" =
      (⟨[], []⟩, [], { ok := false, error := some ("Element " ++ "f0" ++ " not found") }) :=
  ⟨rfl, (fill_click_missing_ref ⟨[], []⟩ "f0" "x" rfl).1,
    (fill_click_missing_ref ⟨[], []⟩ "f0" "x" rfl).2⟩

/-- C10: for every reference string absent from the current table, the fill
and click error paths are atomic: the page state (document and reference
table) is returned unchanged, no DOM event is dispatched and no click is
performed, and the result is a failure. -/
theorem fill_click_missing_ref_atomic (st : PageState) (ref : String) (value : String)
    (h : lookupRef st.table ref = none) :
    (fillFieldByRef st ref value).1 = st ∧
    (fillFieldByRef st ref value).2.1 = ([] : List DomEvent) ∧
    (fillFieldByRef st ref value).2.2.ok = false ∧
    (clickElementByRef st ref).1 = st ∧
    (clickElementByRef st ref).2.1 = ([] : List DomEvent) ∧
    (clickElementByRef st ref).2.2.ok = false := by
  refine ⟨?_, ?_, ?_, ?_, ?_, ?_⟩ <;>
    simp [fillFieldByRef, clickElementByRef, h, errResult]

/-- Witness for C10: on a one-field page whose table only holds `f0`, the
absent reference `b3` leaves the state untouched and dispatches nothing. -/
theorem fill_click_missing_ref_atomic_witness :
    lookupRef (PageState.mk [FormElem.textareaEl "x"] [("f0", 0)]).table "b3" = none ∧
    ((fillFieldByRef ⟨[FormElem.textareaEl "x"], [("f0", 0)]⟩ "b3" "v").1 =
        ⟨[FormElem.textareaEl "x"], [("f0", 0)]⟩ ∧
      (fillFieldByRef ⟨[FormElem.textareaEl "x"], [("f0", 0)]⟩ "b3" "v").2.1 = [] ∧
      (fillFieldByRef ⟨[FormElem.textareaEl "x"], [("f0", 0)]⟩ "b3" "v").2.2.ok = false ∧
      (clickElementByRef ⟨[FormElem.textareaEl "x"], [("f0", 0)]⟩ "b3").1 =
        ⟨[FormElem.textareaEl "x"], [("f0", 0)]⟩ ∧
      (clickElementByRef ⟨[FormElem.textareaEl "x"], [("f0", 0)]⟩ "b3").2.1 = [] ∧
      (clickElementByRef ⟨[FormElem.textareaEl "x"], [("f0", 0)]⟩ "b3").2.2.ok = false) :=
  ⟨by decide, fill_click_missing_ref_atomic ⟨[FormElem.textareaEl "x"], [("f0", 0)]⟩ "b3" "v"
    (by decide)⟩

/-- C7: after the push-event stream of the session owning a tab has errored
(which closes the stream and removes the registry entry), a STOP request for
that tab is a no-op: it issues no effect at all — in particular no second
stop request — leaves the state unchanged, and responds `{ok: true}`. -/
theorem stop_after_stream_error (st : RelayState) (tabId : Nat) (sid : String) :
    handleStop (streamError st tabId sid).1 tabId = ((streamError st tabId sid).1, [], true) := by
  have hfind : ((streamError st tabId sid).1.sessions.find? (fun p => p.1 == tabId)) = none := by
    rw [List.find?_eq_none]
    intro x hx
    have h2 := (List.mem_filter.mp hx).2
    simp only [bne_iff_ne, ne_eq] at h2
    simp [h2]
  simp [handleStop, sessionsGet, hfind]

/-- Entries kept by a delete for a tab never match that tab again. -/
theorem filter_ne_filter_eq (l : List (Nat × String)) (t : Nat) :
    (l.filter (fun p => p.1 != t)).filter (fun p => p.1 == t) = [] := by
  induction l with
  | nil => rfl
  | cons a as ih =>
    by_cases h : a.1 = t
    · simp [List.filter_cons, h, ih]
    · simp [List.filter_cons, h, ih]

/-- C2: handling ACTIVATE for a tab that already has a session produces
exactly the effect trace close-old-stream, stop-old-session, start-request,
open-new-stream — so the old stream is closed and exactly one stop request is
issued for the old id, both before the new session is started — and leaves
exactly one registry entry for the tab, carrying the new session id. -/
theorem activate_with_existing_session (st : RelayState) (tabId : Nat) (oldId newId : String)
    (hold : sessionsGet st tabId = some oldId) :
    (handleActivate st tabId (some newId)).2.1 =
      [RelayEffect.closeStream oldId, RelayEffect.stopRequest oldId,
        RelayEffect.startRequest, RelayEffect.openStream newId] ∧
    (handleActivate st tabId (some newId)).2.1.filter (isStopFor oldId) =
      [RelayEffect.stopRequest oldId] ∧
    (handleActivate st tabId (some newId)).1.sessions.filter (fun p => p.1 == tabId) =
      [(tabId, newId)] ∧
    sessionsGet (handleActivate st tabId (some newId)).1 tabId = some newId := by
  refine ⟨?_, ?_, ?_, ?_⟩
  · simp [handleActivate, hold]
  · simp [handleActivate, hold, isStopFor]
  · simp [handleActivate, hold, sessionsSet, sessionsDelete, List.filter_cons,
      filter_ne_filter_eq]
  · simp [handleActivate, hold, sessionsGet, sessionsSet, sessionsDelete, List.find?_cons]

/-- Witness for C2: activating twice in a row on tab 7. The first activation
registers session s1; the second finds it, and the theorem applies: one stop
request for s1 is issued before s2 starts and the registry holds exactly the
entry (7, s2). -/
theorem activate_with_existing_session_witness :
    sessionsGet (handleActivate ⟨[]⟩ 7 (some "s1")).1 7 = some "s1" ∧
    ((handleActivate (handleActivate ⟨[]⟩ 7 (some "s1")).1 7 (some "s2")).2.1 =
      [RelayEffect.closeStream "s1", RelayEffect.stopRequest "s1",
        RelayEffect.startRequest, RelayEffect.openStream "s2"] ∧
    (handleActivate (handleActivate ⟨[]⟩ 7 (some "s1")).1 7 (some "s2")).2.1.filter
        (isStopFor "s1") = [RelayEffect.stopRequest "s1"] ∧
    (handleActivate (handleActivate ⟨[]⟩ 7 (some "s1")).1 7 (some "s2")).1.sessions.filter
        (fun p => p.1 == 7) = [(7, "s2")] ∧
    sessionsGet (handleActivate (handleActivate ⟨[]⟩ 7 (some "s1")).1 7 (some "s2")).1 7 =
      some "s2") :=
  ⟨by decide,
    activate_with_existing_session (handleActivate ⟨[]⟩ 7 (some "s1")).1 7 "s1" "s2" (by decide)⟩

/-- A resolved question gate stays resolved: later interactions cannot change
or re-deliver the answer. -/
theorem foldl_gateStep_resolved (l : List UiEvent) (a : String) :
    l.foldl gateStep (some a) = some a := by
  induction l with
  | nil => rfl
  | cons e rest ih =>
    have h : gateStep (some a) e = some a := rfl
    simp only [List.foldl_cons, h]
    exact ih

/-- C6 (amended): `showQuestion` resolves exactly once, only on a submission
— via the submit button or the Enter key — whose trimmed text is non-empty;
it never resolves on empty or whitespace-only input; and the resolved answer
is the TRIMMED text of the first valid submission (the source trims before
resolving, so surrounding whitespace is not preserved). -/
theorem showQuestion_resolution (events : List UiEvent) :
    showQuestion events = (events.filterMap validAnswer).head? := by
  induction events with
  | nil => rfl
  | cons e rest ih =>
    have hg : gateStep none e = validAnswer e := rfl
    cases h : validAnswer e with
    | some a =>
      simp [showQuestion, List.foldl_cons, hg, h, foldl_gateStep_resolved, List.filterMap_cons]
    | none =>
      simpa [showQuestion, List.foldl_cons, hg, h, List.filterMap_cons] using ih

/-- Counterexample for C6: the claim says the resolved answer is the literal
string the human submitted; submitting the literal text " hi " (with
surrounding spaces) resolves the gate with the trimmed "hi", not with the
literal " hi ". -/
theorem showQuestion_literal_counterexample :
    showQuestion [UiEvent.keydown "Enter" " hi "] = some "hi" ∧
    showQuestion [UiEvent.keydown "Enter" " hi "] ≠ some " hi " := by
  constructor
  · decide
  · decide

/-- Step 7 of the label chain agrees with its fired-step reading. -/
theorem findLabelFrom7_eq (c : LabelCtx) :
    findLabelFrom7 c = (firstSome [labelStep7 c]).getD "" := by
  unfold findLabelFrom7 labelStep7
  by_cases h : (c.isInput && c.name != "") = true
  · simp [h, firstSome]
  · simp [h, firstSome]

/-- Steps 6-7 of the label chain agree with their fired-step reading. -/
theorem findLabelFrom6_eq (c : LabelCtx) :
    findLabelFrom6 c = (firstSome [labelStep6 c, labelStep7 c]).getD "" := by
  unfold findLabelFrom6 labelStep6
  by_cases h : (c.isInput && c.placeholder != "") = true
  · simp [h, firstSome]
  · simpa [h, firstSome] using findLabelFrom7_eq c

/-- Steps 5-7 of the label chain agree with their fired-step reading. -/
theorem findLabelFrom5_eq (c : LabelCtx) :
    findLabelFrom5 c = (firstSome [labelStep5 c, labelStep6 c, labelStep7 c]).getD "" := by
  unfold findLabelFrom5 labelStep5
  cases hps : c.prevSibling with
  | none => simpa [firstSome] using findLabelFrom6_eq c
  | some p =>
    by_cases htag : (p.1 != "INPUT" && p.1 != "SELECT") = true
    · by_cases htext : (¬jsTrim p.2 = "" ∧ (jsTrim p.2).length < 100)
      · simp [htag, htext, firstSome]
      · simpa [htag, htext, firstSome] using findLabelFrom6_eq c
    · simpa [htag, firstSome] using findLabelFrom6_eq c

/-- Steps 4-7 of the label chain agree with their fired-step reading. -/
theorem findLabelFrom4_eq (c : LabelCtx) :
    findLabelFrom4 c =
      (firstSome [labelStep4 c, labelStep5 c, labelStep6 c, labelStep7 c]).getD "" := by
  unfold findLabelFrom4 labelStep4
  cases halb : c.ariaLabelledBy with
  | none => simpa [firstSome] using findLabelFrom5_eq c
  | some lb =>
    by_cases hlb : (lb != "") = true
    · cases hlbt : c.labelledByText with
      | none => simpa [hlb, firstSome] using findLabelFrom5_eq c
      | some t => simp [hlb, hlbt, firstSome]
    · simpa [hlb, firstSome] using findLabelFrom5_eq c

/-- Steps 3-7 of the label chain agree with their fired-step reading. -/
theorem findLabelFrom3_eq (c : LabelCtx) :
    findLabelFrom3 c =
      (firstSome [labelStep3 c, labelStep4 c, labelStep5 c, labelStep6 c,
        labelStep7 c]).getD "" := by
  unfold findLabelFrom3 labelStep3
  cases hal : c.ariaLabel with
  | none => simpa [firstSome] using findLabelFrom4_eq c
  | some a =>
    by_cases ha : (a != "") = true
    · simp [ha, firstSome]
    · simpa [ha, firstSome] using findLabelFrom4_eq c

/-- Steps 2-7 of the label chain agree with their fired-step reading. -/
theorem findLabelFrom2_eq (c : LabelCtx) :
    findLabelFrom2 c =
      (firstSome [labelStep2 c, labelStep3 c, labelStep4 c, labelStep5 c, labelStep6 c,
        labelStep7 c]).getD "" := by
  unfold findLabelFrom2 labelStep2
  cases halt : c.ancestorLabelText with
  | none => simpa [firstSome] using findLabelFrom3_eq c
  | some t =>
    by_cases ht : (jsTrim t != "") = true
    · simp [ht, firstSome]
    · simpa [ht, firstSome] using findLabelFrom3_eq c

/-- C8 (amended): `findLabel` tries the seven label sources in order, but a
source among (1) `label[for=id]`, (3) `aria-label`, (4) `aria-labelledby`
returns its (possibly empty) trimmed text as soon as its element or attribute
is present — it does not fall through on empty text — and the placeholder and
name fallbacks (6)-(7) apply only to input elements; the empty string results
when no source fires. -/
theorem findLabel_eq_steps (c : LabelCtx) : findLabel c = findLabelAmendedSpec c := by
  unfold findLabel findLabelAmendedSpec labelStep1
  by_cases hid : (c.id != "") = true
  · cases hlft : c.labelForText with
    | none => simpa [hid, firstSome] using findLabelFrom2_eq c
    | some t => simp [hid, hlft, firstSome]
  · simpa [hid, firstSome] using findLabelFrom2_eq c

/-- Counterexample for C8: an element with id `x` whose `label[for=x]` exists
but contains only whitespace, and which carries `aria-label="Email"`. The
claim (try each source until one yields non-empty text) would resolve the
label to `Email`; the code returns the empty string because the existing
`label[for=x]` short-circuits the chain. -/
theorem findLabel_shortcircuit_counterexample :
    findLabel ⟨"x", some "  ", none, some "Email", none, none, none, true, "", ""⟩ = "" ∧
    findLabelClaimed ⟨"x", some "  ", none, some "Email", none, none, none, true, "", ""⟩ =
      "Email" ∧
    findLabel ⟨"x", some "  ", none, some "Email", none, none, none, true, "", ""⟩ ≠
      findLabelClaimed ⟨"x", some "  ", none, some "Email", none, none, none, true, "", ""⟩ := by
  refine ⟨by decide, by decide, by decide⟩

/-- Reading back an index just written by `List.set`. -/
theorem listSet_get? (l : List α) (i : Nat) (a b : α) (h : l.get? i = some b) :
    (l.set i a).get? i = some a := by
  induction l generalizing i with
  | nil => simp at h
  | cons x xs ih =>
    cases i with
    | zero => rfl
    | succ n => exact ih n h

/-- Closed form of filling a checkbox: a toggle click exactly when the
current state differs from the target state. -/
theorem fill_checkbox_eq (st : PageState) (ref : String) (i : Nat) (checked : Bool)
    (v value : String)
    (href : lookupRef st.table ref = some i)
    (hel : st.dom.get? i = some (FormElem.inputEl "checkbox" checked v)) :
    fillFieldByRef st ref value =
      ((if checked == shouldCheck value then st
        else { st with dom := st.dom.set i (FormElem.inputEl "checkbox" (!checked) v) }),
       (if checked == shouldCheck value then [] else [DomEvent.click i]),
       okResult) := by
  simp only [fillFieldByRef, href, hel, fillResolved, shouldCheck]
  by_cases hvp : (jsToLower value = "true" ∨ jsToLower value = "yes" ∨ jsToLower value = "1")
  · rcases hvp with h | h | h <;> cases checked <;> simp [h]
  · push_neg at hvp
    obtain ⟨h1, h2, h3⟩ := hvp
    cases checked <;> simp [h1, h2, h3]

/-- C4: for a reference resolving to a checkbox, filling drives the checked
state to the target state decoded from the value (true exactly when the
lowercased value is `true`, `yes`, or `1` — so those three values yield
checked=true); a native click is fired exactly when the current state differs
from the target; and re-invoking fill with any value of the same target state
on the resulting page fires no click and changes nothing. -/
theorem fill_checkbox_idempotent (st : PageState) (ref : String) (i : Nat)
    (checked : Bool) (v value value2 : String)
    (href : lookupRef st.table ref = some i)
    (hel : st.dom.get? i = some (FormElem.inputEl "checkbox" checked v))
    (hsame : shouldCheck value2 = shouldCheck value) :
    ∃ st2 : PageState,
      fillFieldByRef st ref value =
        (st2, (if checked != shouldCheck value then [DomEvent.click i] else []), okResult) ∧
      st2.dom.get? i = some (FormElem.inputEl "checkbox" (shouldCheck value) v) ∧
      st2.table = st.table ∧
      fillFieldByRef st2 ref value2 = (st2, [], okResult) := by
  have h1 := fill_checkbox_eq st ref i checked v value href hel
  by_cases hcb : checked = shouldCheck value
  · refine ⟨st, ?_, ?_, rfl, ?_⟩
    · rw [h1]
      simp [hcb]
    · rw [hel, hcb]
    · have h2 := fill_checkbox_eq st ref i (shouldCheck value) v value2 href (by rw [hel, hcb])
      rw [h2]
      simp [hsame]
  · have hne : checked ≠ shouldCheck value := hcb
    have hnc : (!checked) = shouldCheck value := by
      revert hne
      cases checked <;> cases hsc : shouldCheck value <;> simp
    refine ⟨{ st with dom := st.dom.set i (FormElem.inputEl "checkbox" (!checked) v) },
      ?_, ?_, rfl, ?_⟩
    · rw [h1]
      simp [hcb, hne]
    · rw [listSet_get? st.dom i _ _ hel, hnc]
    · have hel2 : (st.dom.set i (FormElem.inputEl "checkbox" (!checked) v)).get? i =
          some (FormElem.inputEl "checkbox" (shouldCheck value2) v) := by
        rw [listSet_get? st.dom i _ _ hel, hnc, hsame]
      have h2 := fill_checkbox_eq
        { st with dom := st.dom.set i (FormElem.inputEl "checkbox" (!checked) v) }
        ref i (shouldCheck value2) v value2 href hel2
      rw [h2]
      simp

/-- Witness for C4: a page with one unchecked checkbox `f0`; filling with
`TRUE` checks it with one click, and filling again with `yes` (same target
state) does not toggle it back. -/
theorem fill_checkbox_idempotent_witness :
    lookupRef (PageState.mk [FormElem.inputEl "checkbox" false "on"] [("f0", 0)]).table "f0" =
      some 0 ∧
    (PageState.mk [FormElem.inputEl "checkbox" false "on"] [("f0", 0)]).dom.get? 0 =
      some (FormElem.inputEl "checkbox" false "on") ∧
    shouldCheck "yes" = shouldCheck "TRUE" ∧
    (∃ st2 : PageState,
      fillFieldByRef ⟨[FormElem.inputEl "checkbox" false "on"], [("f0", 0)]⟩ "f0" "TRUE" =
        (st2, (if false != shouldCheck "TRUE" then [DomEvent.click 0] else []), okResult) ∧
      st2.dom.get? 0 = some (FormElem.inputEl "checkbox" (shouldCheck "TRUE") "on") ∧
      st2.table = (PageState.mk [FormElem.inputEl "checkbox" false "on"] [("f0", 0)]).table ∧
      fillFieldByRef st2 "f0" "yes" = (st2, [], okResult)) :=
  ⟨by decide, by decide, by decide,
    fill_checkbox_idempotent ⟨[FormElem.inputEl "checkbox" false "on"], [("f0", 0)]⟩
      "f0" 0 false "on" "TRUE" "yes" (by decide) (by decide) (by decide)⟩

/-- Closed form of filling a radio input: a click exactly when it is not
already checked; the value argument does not appear. -/
theorem fill_radio_eq (st : PageState) (ref : String) (i : Nat) (checked : Bool)
    (v value : String)
    (href : lookupRef st.table ref = some i)
    (hel : st.dom.get? i = some (FormElem.inputEl "radio" checked v)) :
    fillFieldByRef st ref value =
      ((if checked then st
        else { st with dom := st.dom.set i (FormElem.inputEl "radio" true v) }),
       (if checked then [] else [DomEvent.click i]),
       okResult) := by
  simp only [fillFieldByRef, href, hel, fillResolved]
  cases checked <;> simp

/-- C9: for a reference resolving to a checkbox or radio input,
`fillFieldByRef` returns `{ok: true}` for every value string. A checkbox is
driven to the decoded target state — any value other than (case-insensitive)
`true`/`yes`/`1` requests unchecking, so filling a checked box with such a
value unchecks it. A radio ignores the value entirely: it ends checked, is
clicked exactly when it was unchecked, and the whole call result is
independent of the value argument. -/
theorem fill_checkbox_radio_total (st : PageState) (ref : String) (i : Nat)
    (ty : String) (checked : Bool) (v value : String)
    (href : lookupRef st.table ref = some i)
    (hel : st.dom.get? i = some (FormElem.inputEl ty checked v))
    (hty : ty = "checkbox" ∨ ty = "radio") :
    (fillFieldByRef st ref value).2.2 = okResult ∧
    (ty = "checkbox" →
      (fillFieldByRef st ref value).1.dom.get? i =
        some (FormElem.inputEl "checkbox" (shouldCheck value) v)) ∧
    (ty = "radio" →
      (fillFieldByRef st ref value).1.dom.get? i = some (FormElem.inputEl "radio" true v) ∧
      (fillFieldByRef st ref value).2.1 = (if checked then [] else [DomEvent.click i]) ∧
      ∀ value2, fillFieldByRef st ref value2 = fillFieldByRef st ref value) := by
  rcases hty with h | h
  · subst h
    have h1 := fill_checkbox_eq st ref i checked v value href hel
    refine ⟨by rw [h1], ?_, ?_⟩
    · intro _
      rw [h1]
      by_cases hcb : checked = shouldCheck value
      · simp only [hcb, beq_self_eq_true, if_true]
        rw [hel, hcb]
      · have hne : checked ≠ shouldCheck value := hcb
        have hnc : (!checked) = shouldCheck value := by
          revert hne
          cases checked <;> cases hsc : shouldCheck value <;> simp
        simp only [beq_eq_false_iff_ne, ne_eq]
        rw [if_neg (by simpa using hne)]
        exact hnc ▸ listSet_get? st.dom i _ _ hel
    · intro hcontra
      simp at hcontra
  · subst h
    have h1 := fill_radio_eq st ref i checked v value href hel
    refine ⟨by rw [h1], ?_, ?_⟩
    · intro hcontra
      simp at hcontra
    · intro _
      refine ⟨?_, by rw [h1], ?_⟩
      · rw [h1]
        cases checked
        · simp only [if_false, Bool.false_eq_true]
          exact listSet_get? st.dom i _ _ hel
        · simpa using hel
      · intro value2
        rw [fill_radio_eq st ref i checked v value2 href hel, h1]

/-- Witness for C9: a page with a checked checkbox `f0`; filling it with
`banana` succeeds and unchecks it (shouldCheck "banana" is false). -/
theorem fill_checkbox_radio_total_witness :
    lookupRef (PageState.mk [FormElem.inputEl "checkbox" true "on"] [("f0", 0)]).table "f0" =
      some 0 ∧
    (PageState.mk [FormElem.inputEl "checkbox" true "on"] [("f0", 0)]).dom.get? 0 =
      some (FormElem.inputEl "checkbox" true "on") ∧
    ("checkbox" = "checkbox" ∨ "checkbox" = "radio") ∧
    ((fillFieldByRef ⟨[FormElem.inputEl "checkbox" true "on"], [("f0", 0)]⟩ "f0" "banana").2.2 =
        okResult ∧
      ("checkbox" = "checkbox" →
        (fillFieldByRef ⟨[FormElem.inputEl "checkbox" true "on"], [("f0", 0)]⟩ "f0"
            "banana").1.dom.get? 0 =
          some (FormElem.inputEl "checkbox" (shouldCheck "banana") "on")) ∧
      ("checkbox" = "radio" →
        (fillFieldByRef ⟨[FormElem.inputEl "checkbox" true "on"], [("f0", 0)]⟩ "f0"
            "banana").1.dom.get? 0 = some (FormElem.inputEl "radio" true "on") ∧
        (fillFieldByRef ⟨[FormElem.inputEl "checkbox" true "on"], [("f0", 0)]⟩ "f0"
            "banana").2.1 = (if true then [] else [DomEvent.click 0]) ∧
        ∀ value2,
          fillFieldByRef ⟨[FormElem.inputEl "checkbox" true "on"], [("f0", 0)]⟩ "f0" value2 =
            fillFieldByRef ⟨[FormElem.inputEl "checkbox" true "on"], [("f0", 0)]⟩ "f0"
              "banana")) :=
  ⟨by decide, by decide, Or.inl rfl,
    fill_checkbox_radio_total ⟨[FormElem.inputEl "checkbox" true "on"], [("f0", 0)]⟩
      "f0" 0 "checkbox" true "on" "banana" (by decide) (by decide) (Or.inl rfl)⟩

/-- The scanning loop of `fillSelect` computes: the first exact match if one
exists, else the carried best match, else the first substring match. -/
theorem selectLoop_eq (v : String) (l : List SelectOpt) (best : Option SelectOpt) :
    selectLoop v l best = oor (firstExact v l) (oor best (firstSubstr v l)) := by
  induction l generalizing best with
  | nil =>
    cases best <;> rfl
  | cons o rest ih =>
    by_cases hex : isExactMatch v o = true
    · have h1 : firstExact v (o :: rest) = some o := List.find?_cons_of_pos rest hex
      simp [selectLoop, hex, h1, oor]
    · have hexb : isExactMatch v o = false := by simpa using hex
      have h1 : firstExact v (o :: rest) = firstExact v rest :=
        List.find?_cons_of_neg rest (by simp [hexb])
      by_cases hsub : isSubstrMatch v o = true
      · have h2 : firstSubstr v (o :: rest) = some o := List.find?_cons_of_pos rest hsub
        cases best with
        | none =>
          have hL : selectLoop v (o :: rest) none = selectLoop v rest (some o) := by
            simp [selectLoop, hexb, hsub]
          rw [hL, ih (some o), h1, h2]
          cases firstExact v rest <;> rfl
        | some b =>
          have hL : selectLoop v (o :: rest) (some b) = selectLoop v rest (some b) := by
            simp [selectLoop, hexb]
          rw [hL, ih (some b), h1, h2]
          cases firstExact v rest <;> rfl
      · have hsubb : isSubstrMatch v o = false := by simpa using hsub
        have h2 : firstSubstr v (o :: rest) = firstSubstr v rest :=
          List.find?_cons_of_neg rest (by simp [hsubb])
        cases best with
        | none =>
          have hL : selectLoop v (o :: rest) none = selectLoop v rest none := by
            simp [selectLoop, hexb, hsubb]
          rw [hL, ih none, h1, h2]
        | some b =>
          have hL : selectLoop v (o :: rest) (some b) = selectLoop v rest (some b) := by
            simp [selectLoop, hexb]
          rw [hL, ih (some b), h1, h2]

/-- C3: for a reference resolving to a select element, the fill matches the
candidate case-insensitively against the trimmed display text and the value
of each option; the first exact match wins immediately; with no exact match
the first option (in document order) whose text contains the candidate or is
contained in it is selected (the select value becomes the value of that option
and one change event fires); and with no match at all the call fails with a
message enumerating the trimmed display texts of every option whose value is
non-empty. -/
theorem fill_select_spec (st : PageState) (ref : String) (i : Nat)
    (opts : List SelectOpt) (curVal value : String)
    (href : lookupRef st.table ref = some i)
    (hel : st.dom.get? i = some (FormElem.selectEl opts curVal)) :
    fillFieldByRef st ref value =
      (match oor (firstExact (jsTrim (jsToLower value)) opts)
          (firstSubstr (jsTrim (jsToLower value)) opts) with
       | some best =>
         ({ st with dom := st.dom.set i (FormElem.selectEl opts best.value) },
           [DomEvent.changeEv i], okResult)
       | none =>
         (st, [],
           { ok := false,
             error := some ("No matching option for \"" ++ value ++ "\". Available: " ++
               String.intercalate ", "
                 ((opts.filter (fun o => o.value != "")).map (fun o => jsTrim o.text))) })) := by
  simp only [fillFieldByRef, href, hel, fillResolved]
  rw [selectLoop_eq]
  rfl

/-- Witness for C3: a select with a placeholder option (empty value) and two
countries; filling with `CANADA` matches the display text `Canada` exactly,
case-insensitively, and selects its value `ca`. -/
theorem fill_select_spec_witness :
    lookupRef (PageState.mk
        [FormElem.selectEl [⟨"", "Choose"⟩, ⟨"us", "United States"⟩, ⟨"ca", "Canada"⟩] ""]
        [("f0", 0)]).table "f0" = some 0 ∧
    (PageState.mk
        [FormElem.selectEl [⟨"", "Choose"⟩, ⟨"us", "United States"⟩, ⟨"ca", "Canada"⟩] ""]
        [("f0", 0)]).dom.get? 0 =
      some (FormElem.selectEl [⟨"", "Choose"⟩, ⟨"us", "United States"⟩, ⟨"ca", "Canada"⟩] "") ∧
    fillFieldByRef
        ⟨[FormElem.selectEl [⟨"", "Choose"⟩, ⟨"us", "United States"⟩, ⟨"ca", "Canada"⟩] ""],
          [("f0", 0)]⟩ "f0" "CANADA" =
      (match oor (firstExact (jsTrim (jsToLower "CANADA"))
            [⟨"", "Choose"⟩, ⟨"us", "United States"⟩, ⟨"ca", "Canada"⟩])
          (firstSubstr (jsTrim (jsToLower "CANADA"))
            [⟨"", "Choose"⟩, ⟨"us", "United States"⟩, ⟨"ca", "Canada"⟩]) with
       | some best =>
         ({ dom := [FormElem.selectEl
              [⟨"", "Choose"⟩, ⟨"us", "United States"⟩, ⟨"ca", "Canada"⟩] ""].set 0
                (FormElem.selectEl
                  [⟨"", "Choose"⟩, ⟨"us", "United States"⟩, ⟨"ca", "Canada"⟩] best.value),
            table := [("f0", 0)] },
           [DomEvent.changeEv 0], okResult)
       | none =>
         (⟨[FormElem.selectEl [⟨"", "Choose"⟩, ⟨"us", "United States"⟩, ⟨"ca", "Canada"⟩] ""],
            [("f0", 0)]⟩, [],
           { ok := false,
             error := some ("No matching option for \"" ++ "CANADA" ++ "\". Available: " ++
               String.intercalate ", "
                 (([(⟨"", "Choose"⟩ : SelectOpt), ⟨"us", "United States"⟩,
                     ⟨"ca", "Canada"⟩].filter (fun o => o.value != "")).map
                   (fun o => jsTrim o.text))) })) :=
  ⟨by decide, by decide,
    fill_select_spec
      ⟨[FormElem.selectEl [⟨"", "Choose"⟩, ⟨"us", "United States"⟩, ⟨"ca", "Canada"⟩] ""],
        [("f0", 0)]⟩ "f0" 0
      [⟨"", "Choose"⟩, ⟨"us", "United States"⟩, ⟨"ca", "Canada"⟩] "" "CANADA"
      (by decide) (by decide)⟩

/-- A visible text input used as a one-field page in concrete scan runs. -/
def exInput : ScanElem :=
  ⟨"INPUT", "text", "", "", "", "", "", "", false, "static", "block", "visible", "1", 10, 2⟩

/-- Counterexample for C1: on a page with one visible text input, the first
scan produces the reference `f0`; after a second scan of the same page,
`getElementByRef "f0"` still resolves (to the element the second scan
assigned), contradicting the claim that every reference string produced by
the first scan resolves to nothing after the second scan. -/
theorem scan_ref_reuse_counterexample :
    ((scanPage [exInput] []).map Prod.fst) = ["f0"] ∧
    getElementByRef (scanPage [exInput] (scanPage [exInput] [])) "f0" = some 0 ∧
    getElementByRef (scanPage [exInput] (scanPage [exInput] [])) "f0" ≠ none := by
  refine ⟨by decide, by decide, by decide⟩

/-- C1 (amended): the reference table is discarded and rebuilt by every scan,
so after a second scan a reference string from the first scan resolves
exactly as the table of the second scan dictates: identically to a fresh scan of
the second document, and in particular to nothing whenever the second scan
did not produce that reference string (reference strings are reissued from
`f0`/`b0`, so a reissued string resolves to the node the second scan chose). -/
theorem scan_rebuild (dom1 dom2 : List ScanElem) (t : List (String × Nat)) (ref : String)
    (h : lookupRef (scanPage dom2 t) ref = none) :
    getElementByRef (scanPage dom2 (scanPage dom1 t)) ref =
      getElementByRef (scanPage dom2 t) ref ∧
    getElementByRef (scanPage dom2 (scanPage dom1 t)) ref = none :=
  ⟨rfl, h⟩

/-- Witness for C1 (amended): scanning a one-input page and then an empty
page; the reference `f0` from the first scan is absent from the second table
and resolves to nothing. -/
theorem scan_rebuild_witness :
    lookupRef (scanPage [] []) "f0" = none ∧
    (getElementByRef (scanPage [] (scanPage [exInput] [])) "f0" =
        getElementByRef (scanPage [] []) "f0" ∧
      getElementByRef (scanPage [] (scanPage [exInput] [])) "f0" = none) :=
  ⟨rfl, scan_rebuild [exInput] [] [] "f0" rfl⟩

end ClerkBot
